import Mathlib

/-!
Shallow embedding of `tools/cabana/dbcmanager.cc`: a registry (`DBCManager`)
that maps channel sets (`SourceSet`) to protocol databases (`DBCFile`),
resolves a channel to its governing database with wildcard fallback,
performs structural edits through the resolved database, and emits
notifications (`Event`).  Qt signal emissions are modelled as an explicit
event trace; each emitted event is paired with the registry state at the
moment of emission, so ordering properties (notify-before-release) are
expressible.  The throwing `DBCFile` constructor is modelled as an explicit
`construct` function returning `Except`.
-/

set_option autoImplicit false

/-- Modelled from the spec: a Signal is a named field defined within a
message (the `cabana::Signal` type lives in the external database
collaborator, not in the repository slice). -/
structure Signal where
  name : String
  startBit : Nat
deriving DecidableEq, Repr

/-- Modelled from the spec: a Msg is a protocol-level record with a name, a
byte length and named signals (`cabana::Msg`, external collaborator). -/
structure Msg where
  name : String
  size : Nat
  sigs : List Signal
deriving DecidableEq, Repr

/-- Modelled from the spec: a ChannelSet is either the reserved wildcard
value `ALL` or a concrete set of channel identifiers.  `ALL` "matches every
channel not otherwise claimed": it is only a fallback in resolution, so its
direct membership test is false (in the C++ source `SOURCE_ALL` is a
reserved sentinel set that contains no real channel id). -/
inductive SourceSet where
  | all : SourceSet
  | mask : Finset Nat → SourceSet
deriving DecidableEq

/-- The reserved wildcard channel set. -/
def SOURCE_ALL : SourceSet := SourceSet.all

/-- Modelled from the spec: membership test of a ChannelSet; the wildcard
contains no channel directly. -/
def SourceSet.contains : SourceSet → Nat → Bool
  | .all, _ => false
  | .mask s, c => decide (c ∈ s)

/-- Modelled from the spec: union of two ChannelSets (`operator|=`). -/
def SourceSet.union : SourceSet → SourceSet → SourceSet
  | .all, _ => .all
  | _, .all => .all
  | .mask a, .mask b => .mask (a ∪ b)

/-- Modelled from the spec: the channels of a ChannelSet as a duplicate-free
ascending list, used for `for (uint8_t source : dbc_sources)` fan-out loops.
The wildcard enumerates no channel.  (Insertion sort is used so that the
enumeration reduces definitionally on concrete inputs.) -/
def SourceSet.toList : SourceSet → List Nat
  | .all => []
  | .mask s =>
    Quot.liftOn s.val (fun l => l.insertionSort (· ≤ ·))
      (fun l₁ l₂ h =>
        List.eq_of_perm_of_sorted
          ((List.perm_insertionSort _ l₁).trans
            (h.trans (List.perm_insertionSort _ l₂).symm))
          (List.sorted_insertionSort _ l₁) (List.sorted_insertionSort _ l₂))

/-- A MessageKey: `MessageId` from the source, a (channel, address) pair. -/
structure MessageId where
  source : Nat
  address : Nat
deriving DecidableEq, Repr

/-- Modelled from the spec: a loaded protocol database (`DBCFile`, external
collaborator).  It remembers the source reference it was loaded from
(`filename`) and owns messages keyed by address. -/
structure DBCFile where
  filename : String
  msgs : List (Nat × Msg)
deriving DecidableEq, Repr

namespace DBCFile

/-- Modelled from the spec: lookup of a message by its per-database address. -/
def msg (f : DBCFile) (a : Nat) : Option Msg :=
  (f.msgs.find? (fun p => decide (p.1 = a))).map (fun p => p.2)

/-- Modelled from the spec: lookup of a message by name. -/
def msgByName (f : DBCFile) (n : String) : Option Msg :=
  (f.msgs.find? (fun p => decide (p.2.name = n))).map (fun p => p.2)

/-- Modelled from the spec: all messages of the database, keyed by their
per-database address. -/
def getMessages (f : DBCFile) : List (Nat × Msg) :=
  f.msgs

/-- Modelled from the spec: replace the message stored at address `a`. -/
def setMsg (f : DBCFile) (a : Nat) (m : Msg) : DBCFile :=
  { f with msgs := f.msgs.map (fun p => if p.1 = a then (p.1, m) else p) }

end DBCFile

/-- Modelled from the spec: lookup of a signal by name within a message. -/
def Msg.getSig (m : Msg) (n : String) : Option Signal :=
  m.sigs.find? (fun s => decide (s.name = n))

namespace DBCFile

/-- Modelled from the spec: delegate insertion of a new signal under the
message at address `a`; declines (returns `none`) when the message does not
exist or a signal of that name is already present (duplicate name). -/
def addSignal (f : DBCFile) (a : Nat) (sig : Signal) : Option (Signal × DBCFile) :=
  match f.msg a with
  | none => none
  | some m =>
    match m.getSig sig.name with
    | some _ => none
    | none => some (sig, f.setMsg a { m with sigs := m.sigs ++ [sig] })

/-- Modelled from the spec: delegate in-place update of the signal named
`oldName`; declines when the message or the named signal is absent. -/
def updateSignal (f : DBCFile) (a : Nat) (oldName : String) (sig : Signal) :
    Option (Signal × DBCFile) :=
  match f.msg a with
  | none => none
  | some m =>
    match m.getSig oldName with
    | none => none
    | some _ =>
      some (sig, f.setMsg a { m with sigs := m.sigs.map (fun s => if s.name = oldName then sig else s) })

/-- Modelled from the spec: delegate lookup of a signal by message address
and name. -/
def getSignal (f : DBCFile) (a : Nat) (n : String) : Option Signal :=
  (f.msg a).bind (fun m => m.getSig n)

/-- Modelled from the spec: delegate removal of the signal named `n` from the
message at address `a` (a no-op when absent). -/
def removeSignal (f : DBCFile) (a : Nat) (n : String) : DBCFile :=
  match f.msg a with
  | none => f
  | some m => f.setMsg a { m with sigs := m.sigs.filter (fun s => !decide (s.name = n)) }

/-- Modelled from the spec: delegate update of a message's name and byte
length, creating the message when absent (implicit creation). -/
def updateMsg (f : DBCFile) (a : Nat) (n : String) (size : Nat) : DBCFile :=
  match f.msg a with
  | some m => f.setMsg a { m with name := n, size := size }
  | none => { f with msgs := f.msgs ++ [(a, { name := n, size := size, sigs := [] })] }

/-- Modelled from the spec: delegate removal of the message at address `a`
(a no-op when absent; the delegate reports no success information back). -/
def removeMsg (f : DBCFile) (a : Nat) : DBCFile :=
  { f with msgs := f.msgs.filter (fun p => !decide (p.1 = a)) }

end DBCFile

/-- The Qt signals of `DBCManager`, modelled as trace events. -/
inductive Event where
  | DBCFileChanged : Event
  | signalAdded : MessageId → Signal → Event
  | signalUpdated : Signal → Event
  | signalRemoved : Signal → Event
  | msgUpdated : MessageId → Event
  | msgRemoved : MessageId → Event
deriving DecidableEq, Repr

/-- The registry: an ordered collection of (ChannelSet, Database)
associations (`dbc_files`) and the current known-channels set (`sources`). -/
structure DBCManager where
  dbc_files : List (SourceSet × DBCFile)
  sources : SourceSet
deriving DecidableEq

namespace DBCManager

/-- `DBCManager::findDBCFile(uint8_t)`: first pass returns the first
association whose set contains the channel; second pass falls back to the
first `SOURCE_ALL` association, paired with the current known-channels set. -/
def findDBCFile (m : DBCManager) (source : Nat) : Option (SourceSet × DBCFile) :=
  match m.dbc_files.find? (fun p => p.1.contains source) with
  | some p => some p
  | none =>
    match m.dbc_files.find? (fun p => decide (p.1 = SOURCE_ALL)) with
    | some p => some (m.sources, p.2)
    | none => none

/-- `DBCManager::findDBCFile(const MessageId &)`: resolves through the
channel component alone. -/
def findDBCFileId (m : DBCManager) (id : MessageId) : Option (SourceSet × DBCFile) :=
  m.findDBCFile id.source

/-- `DBCManager::dbcCount`. -/
def dbcCount (m : DBCManager) : Nat :=
  m.dbc_files.length

/-- `DBCManager::updateSources`. -/
def updateSources (m : DBCManager) (s : SourceSet) : DBCManager :=
  { m with sources := s }

/-- `DBCManager::msg(const MessageId &)`: resolve, then delegate lookup by
address. -/
def msgById (m : DBCManager) (id : MessageId) : Option Msg :=
  (m.findDBCFileId id).bind (fun p => p.2.msg id.address)

/-- `DBCManager::msg(uint8_t, const QString &)`: resolves with address 0,
then delegates lookup by name. -/
def msgByName (m : DBCManager) (source : Nat) (n : String) : Option Msg :=
  (m.findDBCFileId ⟨source, 0⟩).bind (fun p => p.2.msgByName n)

/-- `DBCManager::getMessages`: resolves with address 0; unresolved channels
yield the empty collection; otherwise every message of the resolved database
is rekeyed into a channel-qualified key. -/
def getMessages (m : DBCManager) (source : Nat) : List (MessageId × Msg) :=
  match m.findDBCFileId ⟨source, 0⟩ with
  | none => []
  | some (_, dbc_file) => dbc_file.getMessages.map (fun p => (⟨source, p.1⟩, p.2))

end DBCManager

/-- Replace the first element satisfying `q` by its image under `t`
(list-level rendering of in-place mutation through the resolved pointer). -/
def replaceFirst {α : Type} (q : α → Bool) (t : α → α) : List α → List α
  | [] => []
  | a :: l => if q a then t a :: l else a :: replaceFirst q t l

namespace DBCManager

/-- Write the mutated database back into the association entry that
resolution for channel `c` selected: the first entry containing `c`, or
failing that the first `SOURCE_ALL` entry.  This renders the C++ in-place
mutation through the `DBCFile*` returned by `findDBCFile`. -/
def writeBack (m : DBCManager) (c : Nat) (f' : DBCFile) : DBCManager :=
  if (m.dbc_files.find? (fun p => p.1.contains c)).isSome then
    { m with dbc_files := replaceFirst (fun p => p.1.contains c) (fun p => (p.1, f')) m.dbc_files }
  else
    { m with dbc_files := replaceFirst (fun p => decide (p.1 = SOURCE_ALL)) (fun p => (p.1, f')) m.dbc_files }

end DBCManager

/-- Result of an edit operation: the final registry state and the trace of
emitted events, each paired with the registry state at the moment of its
emission.  Edit operations return `none` when channel resolution fails,
rendering the `assert(sources_dbc_file)` contract violation. -/
structure EditResult where
  state : DBCManager
  trace : List (DBCManager × Event)
deriving DecidableEq

/-- The events of an edit result, in emission order. -/
def EditResult.events (r : EditResult) : List Event :=
  r.trace.map (fun pe => pe.2)

namespace DBCManager

/-- `DBCManager::addSignal`: resolve, delegate the insertion; on success
emit one `signalAdded` per channel of the resolved set, each with that
channel and the shared address; on delegate decline do nothing. -/
def addSignal (m : DBCManager) (id : MessageId) (sig : Signal) : Option EditResult :=
  match m.findDBCFile id.source with
  | none => none
  | some (dbc_sources, dbc_file) =>
    match dbc_file.addSignal id.address sig with
    | none => some ⟨m, []⟩
    | some (s, f') =>
      let m' := m.writeBack id.source f'
      some ⟨m', dbc_sources.toList.map (fun src => (m', Event.signalAdded ⟨src, id.address⟩ s))⟩

/-- `DBCManager::updateSignal`: resolve, delegate the update; on success
emit exactly one `signalUpdated`; on delegate decline do nothing. -/
def updateSignal (m : DBCManager) (id : MessageId) (sigName : String) (sig : Signal) :
    Option EditResult :=
  match m.findDBCFile id.source with
  | none => none
  | some (_, dbc_file) =>
    match dbc_file.updateSignal id.address sigName sig with
    | none => some ⟨m, []⟩
    | some (s, f') =>
      let m' := m.writeBack id.source f'
      some ⟨m', [(m', Event.signalUpdated s)]⟩

/-- `DBCManager::removeSignal`: resolve, look the signal up; when present,
first emit `signalRemoved` (with the registry still unchanged, so the signal
is still valid), then perform the removal. -/
def removeSignal (m : DBCManager) (id : MessageId) (sigName : String) : Option EditResult :=
  match m.findDBCFile id.source with
  | none => none
  | some (_, dbc_file) =>
    match dbc_file.getSignal id.address sigName with
    | none => some ⟨m, []⟩
    | some s =>
      some ⟨m.writeBack id.source (dbc_file.removeSignal id.address sigName),
            [(m, Event.signalRemoved s)]⟩

/-- `DBCManager::updateMsg`: resolve, delegate the update, then emit one
`msgUpdated` per channel of the resolved set, unconditionally. -/
def updateMsg (m : DBCManager) (id : MessageId) (n : String) (size : Nat) : Option EditResult :=
  match m.findDBCFile id.source with
  | none => none
  | some (dbc_sources, dbc_file) =>
    let m' := m.writeBack id.source (dbc_file.updateMsg id.address n size)
    some ⟨m', dbc_sources.toList.map (fun src => (m', Event.msgUpdated ⟨src, id.address⟩))⟩

/-- `DBCManager::removeMsg`: resolve, delegate the removal, then emit one
`msgRemoved` per channel of the resolved set, unconditionally. -/
def removeMsg (m : DBCManager) (id : MessageId) : Option EditResult :=
  match m.findDBCFile id.source with
  | none => none
  | some (dbc_sources, dbc_file) =>
    let m' := m.writeBack id.source (dbc_file.removeMsg id.address)
    some ⟨m', dbc_sources.toList.map (fun src => (m', Event.msgRemoved ⟨src, id.address⟩))⟩

/-- `DBCManager::closeAll`: destroy every database, clear the collection and
emit one `DBCFileChanged`. -/
def closeAll (m : DBCManager) : DBCManager × List Event :=
  ({ m with dbc_files := [] }, [Event.DBCFileChanged])

end DBCManager

/-- Outcome of the scan loop of `DBCManager::open` over `dbc_files`. -/
inductive ScanOut where
  | merged : SourceSet → ScanOut
  | replaced : List (SourceSet × DBCFile) → ScanOut
  | failed : String → ScanOut
  | notFound : ScanOut
deriving DecidableEq

/-- The loop of `DBCManager::open(SourceSet, filename, error)`.  Each stored
entry is examined by `auto [ss, dbc_file] = dbc_files[i]`, which copies the
pair.  On a filename match the code computes `ss |= s` — a union into the
structured-binding copy, which is discarded — so `merged` carries the
computed union while the stored list is left unchanged.  On a channel-set
match the replacement database is constructed first; only on success is the
entry substituted. -/
def openScan (construct : String → Except String DBCFile) (s : SourceSet) (fname : String) :
    List (SourceSet × DBCFile) → ScanOut
  | [] => .notFound
  | (ss, f) :: rest =>
    if f.filename = fname then .merged (ss.union s)
    else if ss = s then
      match construct fname with
      | .ok nf => .replaced ((s, nf) :: rest)
      | .error e => .failed e
    else
      match openScan construct s fname rest with
      | .replaced l => .replaced ((ss, f) :: l)
      | o => o

/-- Result of `DBCManager::open`: return value, error out-parameter, final
registry state and emitted events. -/
structure OpenResult where
  ok : Bool
  err : Option String
  state : DBCManager
  events : List Event
deriving DecidableEq

namespace DBCManager

/-- `DBCManager::open(SourceSet, filename, error)`: scan for a merge or
replace; otherwise construct and append a fresh association.  Construction
failure reports the error and leaves the registry untouched, emitting
nothing. -/
def openDBC (m : DBCManager) (construct : String → Except String DBCFile)
    (s : SourceSet) (fname : String) : OpenResult :=
  match openScan construct s fname m.dbc_files with
  | .merged _ => ⟨true, none, m, [Event.DBCFileChanged]⟩
  | .replaced l => ⟨true, none, { m with dbc_files := l }, [Event.DBCFileChanged]⟩
  | .failed e => ⟨false, some e, m, []⟩
  | .notFound =>
    match construct fname with
    | .ok nf => ⟨true, none, { m with dbc_files := m.dbc_files ++ [(s, nf)] }, [Event.DBCFileChanged]⟩
    | .error e => ⟨false, some e, m, []⟩

end DBCManager

/-! ### Concrete inputs used by witnesses and counterexamples -/

/-- A concrete database with one message (address 5) carrying one signal. -/
def fileA : DBCFile := ⟨"a.dbc", [(5, ⟨"M5", 8, [⟨"S1", 0⟩]⟩)]⟩

/-- A concrete empty database. -/
def fileB : DBCFile := ⟨"b.dbc", []⟩

/-- Another concrete empty database. -/
def fileC : DBCFile := ⟨"c.dbc", []⟩

/-- A registry holding two specific associations around a wildcard entry. -/
def mgrW : DBCManager :=
  ⟨[(SourceSet.mask {2}, fileB), (SOURCE_ALL, fileC), (SourceSet.mask {1}, fileA)],
   SourceSet.mask {1, 2}⟩

/-- A registry without any wildcard association. -/
def mgrN : DBCManager := ⟨[(SourceSet.mask {2}, fileB)], SourceSet.mask {2}⟩

/-- A registry with the single association {1} -> fileA. -/
def mgr1 : DBCManager := ⟨[(SourceSet.mask {1}, fileA)], SourceSet.mask {1}⟩

/-- A registry with the shared association {1,2,3} -> fileA. -/
def mgr123 : DBCManager := ⟨[(SourceSet.mask {1, 2, 3}, fileA)], SourceSet.mask {1, 2, 3}⟩

/-- The empty registry. -/
def mgr0 : DBCManager := ⟨[], SourceSet.mask ∅⟩

/-- A database constructor that always succeeds with an empty database named
by the source reference. -/
def constructOk : String → Except String DBCFile := fun n => Except.ok ⟨n, []⟩

/-- A database constructor that always fails to parse. -/
def constructFail : String → Except String DBCFile := fun _ => Except.error "parse error"

/-! ### Helper lemmas -/

theorem find?_append_first {α : Type} (q : α → Bool) (l₁ l₂ : List α) (x : α)
    (h₁ : ∀ a ∈ l₁, q a = false) (hx : q x = true) :
    List.find? q (l₁ ++ x :: l₂) = some x := by
  induction l₁ with
  | nil => simpa using List.find?_cons_of_pos l₂ hx
  | cons a t ih =>
    have ha : ¬ q a = true := by simp [h₁ a (by simp)]
    have := ih (fun b hb => h₁ b (by simp [hb]))
    simpa [List.find?_cons_of_neg _ ha] using this

theorem mem_replaceFirst {α : Type} {q : α → Bool} {t : α → α} (l : List α) {b : α} :
    b ∈ replaceFirst q t l → ∃ a ∈ l, b = a ∨ b = t a := by
  induction l with
  | nil => intro hb; simp [replaceFirst] at hb
  | cons a l ih =>
    intro hb
    rw [replaceFirst] at hb
    by_cases h : q a = true
    · rw [if_pos h] at hb
      rcases List.mem_cons.mp hb with hb | hb
      · exact ⟨a, List.mem_cons_self a l, Or.inr hb⟩
      · exact ⟨b, List.mem_cons_of_mem a hb, Or.inl rfl⟩
    · rw [if_neg h] at hb
      rcases List.mem_cons.mp hb with hb | hb
      · exact ⟨a, List.mem_cons_self a l, Or.inl hb⟩
      · rcases ih hb with ⟨c, hc, hbc⟩
        exact ⟨c, List.mem_cons_of_mem a hc, hbc⟩

theorem find?_replaceFirst {α : Type} (q : α → Bool) (t : α → α)
    (ht : ∀ a, q (t a) = q a) (l : List α) :
    List.find? q (replaceFirst q t l) = (List.find? q l).map t := by
  induction l with
  | nil => simp [replaceFirst]
  | cons a l ih =>
    by_cases h : q a = true
    · have hta : q (t a) = true := by rw [ht a]; exact h
      simp [replaceFirst, h, List.find?_cons_of_pos _ hta, List.find?_cons_of_pos _ h]
    · have hta : ¬ q (t a) = true := by rw [ht a]; exact h
      simp [replaceFirst, h, List.find?_cons_of_neg _ h, ih]

theorem find?_replaceFirst_of_none {α : Type} (q q' : α → Bool) (t : α → α)
    (ht : ∀ a, q' (t a) = q' a) (l : List α) (h : List.find? q' l = none) :
    List.find? q' (replaceFirst q t l) = none := by
  rw [List.find?_eq_none] at h ⊢
  intro b hb
  rcases mem_replaceFirst l hb with ⟨a, ha, hba | hba⟩
  · subst hba; exact h b ha
  · subst hba
    intro hq
    exact h a ha (by rw [← ht a]; exact hq)

theorem SourceSet.toList_nodup (ss : SourceSet) : ss.toList.Nodup := by
  cases ss with
  | all => simp [SourceSet.toList]
  | mask s =>
    rcases s with ⟨val, hnodup⟩
    revert hnodup
    refine Quot.inductionOn val ?_
    intro l hl
    exact ((List.perm_insertionSort _ l).nodup_iff).mpr hl

theorem SourceSet.mem_toList (ss : SourceSet) (c : Nat) :
    c ∈ ss.toList ↔ ss.contains c = true := by
  cases ss with
  | all => simp [SourceSet.toList, SourceSet.contains]
  | mask s =>
    rcases s with ⟨val, hnodup⟩
    simp only [SourceSet.contains, decide_eq_true_eq]
    revert hnodup
    refine Quot.inductionOn val ?_
    intro l hl
    constructor
    · intro hc
      exact Finset.mem_mk.mpr (((List.perm_insertionSort _ l).mem_iff).mp hc)
    · intro hc
      exact ((List.perm_insertionSort _ l).mem_iff).mpr (Finset.mem_mk.mp hc)

theorem count_map_nodup (g : Nat → Event) (hg : ∀ a b, g a = g b → a = b)
    (l : List Nat) (hl : l.Nodup) (c : Nat) :
    (l.map g).count (g c) = if c ∈ l then 1 else 0 := by
  induction l with
  | nil => simp
  | cons a l ih =>
    rcases List.nodup_cons.mp hl with ⟨ha, hl'⟩
    by_cases hc : c = a
    · subst hc
      simp [List.count_cons, ih hl', ha]
    · have hne : ¬ g c = g a := fun h => hc (hg _ _ h)
      simp [List.count_cons, ih hl', hne, hc]

theorem DBCFile.msg_setMsg {f : DBCFile} {a : Nat} {m0 : Msg} (m' : Msg)
    (h : f.msg a = some m0) : (f.setMsg a m').msg a = some m' := by
  unfold DBCFile.msg at h
  cases hf : f.msgs.find? (fun p => decide (p.1 = a)) with
  | none => rw [hf] at h; simp at h
  | some p =>
    rw [hf] at h
    have hp' : p.1 = a := by
      have h2 := List.find?_some hf
      simpa using h2
    unfold DBCFile.msg DBCFile.setMsg
    rw [List.find?_map]
    have hpred : ((fun q => decide (q.1 = a)) ∘ (fun q => if q.1 = a then (q.1, m') else q)) =
        (fun q : Nat × Msg => decide (q.1 = a)) := by
      funext q
      by_cases hq : q.1 = a <;> simp [hq]
    rw [hpred, hf]
    simp [hp']

theorem DBCFile.getSignal_removeSignal (f : DBCFile) (a : Nat) (n : String) :
    (f.removeSignal a n).getSignal a n = none := by
  unfold DBCFile.removeSignal
  cases h : f.msg a with
  | none =>
    unfold DBCFile.getSignal
    rw [h]
    rfl
  | some m =>
    unfold DBCFile.getSignal
    rw [DBCFile.msg_setMsg _ h]
    simp only [Option.some_bind]
    unfold Msg.getSig
    rw [List.find?_eq_none]
    intro s hs
    have h2 := (List.mem_filter.mp hs).2
    intro hc
    have hc' : decide (s.name = n) = true := hc
    rw [hc'] at h2
    simp at h2

theorem DBCManager.findDBCFile_writeBack (m : DBCManager) (c : Nat) (f' : DBCFile)
    {ss : SourceSet} {f0 : DBCFile} (h : m.findDBCFile c = some (ss, f0)) :
    (m.writeBack c f').findDBCFile c = some (ss, f') := by
  cases hp : m.dbc_files.find? (fun p => p.1.contains c) with
  | some p =>
    have h' : p = (ss, f0) := by
      unfold DBCManager.findDBCFile at h
      rw [hp] at h
      simpa using h
    unfold DBCManager.writeBack
    rw [hp]
    rw [if_pos (by simp)]
    unfold DBCManager.findDBCFile
    simp only
    rw [find?_replaceFirst (fun p : SourceSet × DBCFile => p.1.contains c)
          (fun p => (p.1, f')) (fun a => rfl) m.dbc_files]
    rw [hp, h']
    rfl
  | none =>
    unfold DBCManager.findDBCFile at h
    rw [hp] at h
    cases hq : m.dbc_files.find? (fun p => decide (p.1 = SOURCE_ALL)) with
    | none => rw [hq] at h; exact absurd h (by simp)
    | some p =>
      rw [hq] at h
      have h3 : (m.sources, p.2) = (ss, f0) := by simpa using h
      have h1 : m.sources = ss := congrArg Prod.fst h3
      unfold DBCManager.writeBack
      rw [hp]
      rw [if_neg (by simp)]
      unfold DBCManager.findDBCFile
      simp only
      rw [find?_replaceFirst_of_none (fun p : SourceSet × DBCFile => decide (p.1 = SOURCE_ALL))
            (fun p => p.1.contains c) (fun p => (p.1, f')) (fun a => rfl) m.dbc_files hp]
      rw [find?_replaceFirst (fun p : SourceSet × DBCFile => decide (p.1 = SOURCE_ALL))
            (fun p => (p.1, f')) (fun a => rfl) m.dbc_files]
      rw [hq]
      simp [h1]

theorem openScan_of_construct_error (construct : String → Except String DBCFile)
    (s : SourceSet) (fname : String) (msg : String)
    (h : construct fname = Except.error msg) (l : List (SourceSet × DBCFile)) :
    openScan construct s fname l = ScanOut.notFound ∨
    (∃ ss, openScan construct s fname l = ScanOut.merged ss ∧ ∃ p ∈ l, p.2.filename = fname) ∨
    openScan construct s fname l = ScanOut.failed msg := by
  induction l with
  | nil => left; rfl
  | cons a l ih =>
    obtain ⟨ss, f⟩ := a
    by_cases h1 : f.filename = fname
    · right; left
      refine ⟨ss.union s, ?_, ⟨(ss, f), List.mem_cons_self _ _, h1⟩⟩
      rw [openScan, if_pos h1]
    · by_cases h2 : ss = s
      · right; right
        rw [openScan, if_neg h1, if_pos h2, h]
      · rcases ih with h3 | ⟨ss', h3, p, hp, hpf⟩ | h3
        · left
          rw [openScan, if_neg h1, if_neg h2, h3]
        · right; left
          refine ⟨ss', ?_, p, List.mem_cons_of_mem _ hp, hpf⟩
          rw [openScan, if_neg h1, if_neg h2, h3]
        · right; right
          rw [openScan, if_neg h1, if_neg h2, h3]

/-! ### Claims -/

/-- C1: Resolution policy: `findDBCFile c` returns the first association in
scan order whose channel set contains `c`; if no such association exists it
returns the first association whose channel set equals `ALL`, paired with
the registry's current known-channels set; if neither exists it returns
nothing.  In particular a channel-specific association always shadows the
wildcard association for that channel (the wildcard never matches in the
first pass). -/
theorem claim_C1_resolution (m : DBCManager) (c : Nat) :
    (∀ l₁ p l₂, m.dbc_files = l₁ ++ p :: l₂ → p.1.contains c = true →
      (∀ q ∈ l₁, q.1.contains c = false) → m.findDBCFile c = some p) ∧
    ((∀ q ∈ m.dbc_files, q.1.contains c = false) →
      ∀ l₁ p l₂, m.dbc_files = l₁ ++ p :: l₂ → p.1 = SOURCE_ALL →
        (∀ q ∈ l₁, q.1 ≠ SOURCE_ALL) → m.findDBCFile c = some (m.sources, p.2)) ∧
    ((∀ q ∈ m.dbc_files, q.1.contains c = false ∧ q.1 ≠ SOURCE_ALL) →
      m.findDBCFile c = none) := by
  refine ⟨?_, ?_, ?_⟩
  · intro l₁ p l₂ hsplit hp hl₁
    have hfind1 : m.dbc_files.find? (fun q => q.1.contains c) = some p := by
      rw [hsplit]
      exact find?_append_first _ l₁ l₂ p hl₁ hp
    simp [DBCManager.findDBCFile, hfind1]
  · intro hnone l₁ p l₂ hsplit hp hl₁
    have hfind1 : m.dbc_files.find? (fun q => q.1.contains c) = none := by
      rw [List.find?_eq_none]
      intro x hx
      simp [hnone x hx]
    have hfind2 : m.dbc_files.find? (fun q => decide (q.1 = SOURCE_ALL)) = some p := by
      rw [hsplit]
      refine find?_append_first _ l₁ l₂ p ?_ (by simp [hp])
      intro a ha
      simp [hl₁ a ha]
    simp [DBCManager.findDBCFile, hfind1, hfind2]
  · intro hboth
    have hfind1 : m.dbc_files.find? (fun q => q.1.contains c) = none := by
      rw [List.find?_eq_none]
      intro x hx
      simp [(hboth x hx).1]
    have hfind2 : m.dbc_files.find? (fun q => decide (q.1 = SOURCE_ALL)) = none := by
      rw [List.find?_eq_none]
      intro x hx
      simp [(hboth x hx).2]
    simp [DBCManager.findDBCFile, hfind1, hfind2]

/-- Witness for C1 at concrete registries: a specific association shadows an
earlier wildcard entry; with no specific match the wildcard entry is
returned paired with the known-channels set; with neither, resolution yields
nothing. -/
theorem claim_C1_resolution_witness :
    mgrW.findDBCFile 1 = some (SourceSet.mask {1}, fileA) ∧
    mgrW.findDBCFile 7 = some (SourceSet.mask {1, 2}, fileC) ∧
    mgrN.findDBCFile 1 = none := by
  refine ⟨?_, ?_, ?_⟩
  · exact (claim_C1_resolution mgrW 1).1
      [(SourceSet.mask {2}, fileB), (SOURCE_ALL, fileC)] (SourceSet.mask {1}, fileA) []
      rfl (by decide) (by decide)
  · exact (claim_C1_resolution mgrW 7).2.1 (by decide)
      [(SourceSet.mask {2}, fileB)] (SOURCE_ALL, fileC) [(SourceSet.mask {1}, fileA)]
      rfl rfl (by decide)
  · exact (claim_C1_resolution mgrN 1).2.2 (by decide)

/-- C10: Resolution ignores the address component of a key: two MessageKeys
with the same channel resolve to the same association, and the by-key,
by-name and by-channel queries all resolve through the channel alone (the
internal resolution with address 0 loses no information). -/
theorem claim_C10_channel_only (m : DBCManager) (id id' : MessageId) (n : String)
    (h : id.source = id'.source) :
    m.findDBCFileId id = m.findDBCFileId id' ∧
    m.msgById id = (m.findDBCFileId id').bind (fun p => p.2.msg id.address) ∧
    m.msgByName id.source n = (m.findDBCFileId id').bind (fun p => p.2.msgByName n) ∧
    m.getMessages id.source =
      (match m.findDBCFileId id' with
       | none => []
       | some (_, f) => f.getMessages.map (fun p => ((⟨id.source, p.1⟩ : MessageId), p.2))) := by
  have hs : m.findDBCFileId id = m.findDBCFileId id' := by
    unfold DBCManager.findDBCFileId
    rw [h]
  refine ⟨hs, ?_, ?_, ?_⟩
  · unfold DBCManager.msgById
    rw [hs]
  · unfold DBCManager.msgByName
    have hs0 : m.findDBCFileId ⟨id.source, 0⟩ = m.findDBCFileId id' := by
      unfold DBCManager.findDBCFileId
      rw [show (⟨id.source, 0⟩ : MessageId).source = id.source from rfl, h]
    rw [hs0]
  · unfold DBCManager.getMessages
    have hs0 : m.findDBCFileId ⟨id.source, 0⟩ = m.findDBCFileId id' := by
      unfold DBCManager.findDBCFileId
      rw [show (⟨id.source, 0⟩ : MessageId).source = id.source from rfl, h]
    rw [hs0]

/-- Witness for C10: keys (1,5) and (1,99) resolve identically in a concrete
registry. -/
theorem claim_C10_channel_only_witness :
    mgrW.findDBCFileId ⟨1, 5⟩ = mgrW.findDBCFileId ⟨1, 99⟩ :=
  (claim_C10_channel_only mgrW ⟨1, 5⟩ ⟨1, 99⟩ "M5" rfl).1

/-- C8: getMessages: an unresolved channel yields the empty collection (not
an error); a resolved channel yields exactly the resolved database's
messages, rekeyed from per-database addresses to channel-qualified keys. -/
theorem claim_C8_getMessages (m : DBCManager) (c : Nat) :
    (m.findDBCFile c = none → m.getMessages c = []) ∧
    (∀ ss f, m.findDBCFile c = some (ss, f) →
      m.getMessages c = f.getMessages.map (fun p => ((⟨c, p.1⟩ : MessageId), p.2))) := by
  constructor
  · intro h
    unfold DBCManager.getMessages DBCManager.findDBCFileId
    rw [show (⟨c, 0⟩ : MessageId).source = c from rfl, h]
  · intro ss f h
    unfold DBCManager.getMessages DBCManager.findDBCFileId
    rw [show (⟨c, 0⟩ : MessageId).source = c from rfl, h]

/-- Witness for C8: a resolved channel yields the rekeyed message list; an
unresolved channel yields the empty list. -/
theorem claim_C8_getMessages_witness :
    mgr1.getMessages 1 = [(⟨1, 5⟩, ⟨"M5", 8, [⟨"S1", 0⟩]⟩)] ∧ mgrN.getMessages 7 = [] := by
  constructor
  · have h := (claim_C8_getMessages mgr1 1).2 (SourceSet.mask {1}) fileA (by decide)
    rw [h]
    rfl
  · exact (claim_C8_getMessages mgrN 7).1 (by decide)

/-- C9: closeAll leaves the association collection empty, `dbcCount = 0`,
every channel unresolvable, and emits exactly one registry-changed
notification, for every prior registry state. -/
theorem claim_C9_closeAll (m : DBCManager) :
    (m.closeAll).1.dbc_files = [] ∧
    (m.closeAll).1.dbcCount = 0 ∧
    (∀ c, (m.closeAll).1.findDBCFile c = none) ∧
    (m.closeAll).2 = [Event.DBCFileChanged] := by
  refine ⟨rfl, rfl, ?_, rfl⟩
  intro c
  rfl

/-- C4: addSignal fan-out: when the delegate inserts the signal, exactly one
signalAdded notification is emitted per channel of the resolved
association's channel set, each carrying a key made of that channel and the
shared address and the same inserted signal; when the delegate declines,
no notification is emitted. -/
theorem claim_C4_addSignal_fanout (m : DBCManager) (id : MessageId) (sig : Signal)
    (ss : SourceSet) (f : DBCFile)
    (h : m.findDBCFile id.source = some (ss, f)) :
    (∀ s f', f.addSignal id.address sig = some (s, f') →
      ∃ r, m.addSignal id sig = some r ∧
        (∀ ch, r.events.count (Event.signalAdded ⟨ch, id.address⟩ s) =
          if ss.contains ch = true then 1 else 0) ∧
        (∀ e ∈ r.events, ∃ ch, ss.contains ch = true ∧
          e = Event.signalAdded ⟨ch, id.address⟩ s)) ∧
    (f.addSignal id.address sig = none → m.addSignal id sig = some ⟨m, []⟩) := by
  constructor
  · intro s f' h2
    refine ⟨⟨m.writeBack id.source f',
        ss.toList.map (fun src => (m.writeBack id.source f', Event.signalAdded ⟨src, id.address⟩ s))⟩,
      ?_, ?_, ?_⟩
    · simp [DBCManager.addSignal, h, h2]
    · intro ch
      have hev : (EditResult.events ⟨m.writeBack id.source f',
          ss.toList.map (fun src => (m.writeBack id.source f', Event.signalAdded ⟨src, id.address⟩ s))⟩) =
          ss.toList.map (fun src => Event.signalAdded ⟨src, id.address⟩ s) := by
        simp [EditResult.events]
      rw [hev]
      have hinj : ∀ a b : Nat,
          (fun src => Event.signalAdded ⟨src, id.address⟩ s) a =
          (fun src => Event.signalAdded ⟨src, id.address⟩ s) b → a = b := by
        intro a b hab
        simpa using hab
      rw [count_map_nodup (fun src => Event.signalAdded ⟨src, id.address⟩ s) hinj
            ss.toList (SourceSet.toList_nodup ss) ch]
      simp [SourceSet.mem_toList]
    · intro e he
      have he' : e ∈ ss.toList.map (fun src => Event.signalAdded ⟨src, id.address⟩ s) := by
        simpa [EditResult.events] using he
      rcases List.mem_map.mp he' with ⟨ch, hch, rfl⟩
      exact ⟨ch, (SourceSet.mem_toList ss ch).mp hch, rfl⟩
  · intro h2
    simp [DBCManager.addSignal, h, h2]

/-- Witness for C4: in a registry sharing one database across channels
{1,2,3}, addSignal on channel 1 yields exactly one notification per channel
(three in total), each with the shared address and signal. -/
theorem claim_C4_addSignal_fanout_witness :
    ∃ r, mgr123.addSignal ⟨1, 5⟩ ⟨"S2", 8⟩ = some r ∧
      (∀ ch, r.events.count (Event.signalAdded ⟨ch, 5⟩ ⟨"S2", 8⟩) =
        if (SourceSet.mask {1, 2, 3}).contains ch = true then 1 else 0) ∧
      (∀ e ∈ r.events, ∃ ch, (SourceSet.mask {1, 2, 3}).contains ch = true ∧
        e = Event.signalAdded ⟨ch, 5⟩ ⟨"S2", 8⟩) :=
  (claim_C4_addSignal_fanout mgr123 ⟨1, 5⟩ ⟨"S2", 8⟩ (SourceSet.mask {1, 2, 3}) fileA
    (by decide)).1 ⟨"S2", 8⟩ _ rfl

/-- C5: updateSignal single-target: a successful updateSignal emits exactly
one signalUpdated notification carrying the updated signal, whatever the
size of the resolved channel set. -/
theorem claim_C5_updateSignal_single (m : DBCManager) (id : MessageId) (sigName : String)
    (sig : Signal) (ss : SourceSet) (f : DBCFile) (s : Signal) (f' : DBCFile)
    (h : m.findDBCFile id.source = some (ss, f))
    (h2 : f.updateSignal id.address sigName sig = some (s, f')) :
    ∃ r, m.updateSignal id sigName sig = some r ∧
      r.events = [Event.signalUpdated s] ∧ r.events.length = 1 := by
  refine ⟨⟨m.writeBack id.source f', [(m.writeBack id.source f', Event.signalUpdated s)]⟩,
    ?_, rfl, rfl⟩
  simp [DBCManager.updateSignal, h, h2]

/-- Witness for C5: on the shared association {1,2,3} a successful
updateSignal emits exactly one notification. -/
theorem claim_C5_updateSignal_single_witness :
    ∃ r, mgr123.updateSignal ⟨1, 5⟩ "S1" ⟨"S1x", 4⟩ = some r ∧
      r.events = [Event.signalUpdated ⟨"S1x", 4⟩] ∧ r.events.length = 1 :=
  claim_C5_updateSignal_single mgr123 ⟨1, 5⟩ "S1" ⟨"S1x", 4⟩ (SourceSet.mask {1, 2, 3})
    fileA ⟨"S1x", 4⟩ _ (by decide) rfl

/-- C6: removeSignal notify-before-release ordering: when the named signal
is present, exactly one signalRemoved notification is emitted, at a moment
when the registry still resolves to the unmodified database (so the carried
signal is still valid), and only the final state has the signal removed;
when the signal is absent, neither a notification nor a removal occurs. -/
theorem claim_C6_removeSignal_order (m : DBCManager) (id : MessageId) (sigName : String)
    (ss : SourceSet) (f : DBCFile)
    (h : m.findDBCFile id.source = some (ss, f)) :
    (∀ s, f.getSignal id.address sigName = some s →
      ∃ r, m.removeSignal id sigName = some r ∧
        r.events = [Event.signalRemoved s] ∧
        (∀ pe ∈ r.trace, pe.1.findDBCFile id.source = some (ss, f) ∧
          f.getSignal id.address sigName = some s) ∧
        ∃ f₂, r.state.findDBCFile id.source = some (ss, f₂) ∧
          f₂.getSignal id.address sigName = none) ∧
    (f.getSignal id.address sigName = none →
      m.removeSignal id sigName = some ⟨m, []⟩) := by
  constructor
  · intro s h2
    refine ⟨⟨m.writeBack id.source (f.removeSignal id.address sigName),
        [(m, Event.signalRemoved s)]⟩, ?_, rfl, ?_, ?_⟩
    · simp [DBCManager.removeSignal, h, h2]
    · intro pe hpe
      have hpe' : pe = (m, Event.signalRemoved s) := by simpa using hpe
      rw [hpe']
      exact ⟨h, h2⟩
    · exact ⟨f.removeSignal id.address sigName,
        DBCManager.findDBCFile_writeBack m id.source _ h,
        DBCFile.getSignal_removeSignal f id.address sigName⟩
  · intro h2
    simp [DBCManager.removeSignal, h, h2]

/-- Witness for C6: removing the present signal S1 emits one notification
carrying it, with the registry at emission time still resolving to the
original database, and the final state no longer holding the signal. -/
theorem claim_C6_removeSignal_order_witness :
    ∃ r, mgr1.removeSignal ⟨1, 5⟩ "S1" = some r ∧
      r.events = [Event.signalRemoved ⟨"S1", 0⟩] ∧
      (∀ pe ∈ r.trace, pe.1.findDBCFile 1 = some (SourceSet.mask {1}, fileA) ∧
        fileA.getSignal 5 "S1" = some ⟨"S1", 0⟩) ∧
      ∃ f₂, r.state.findDBCFile 1 = some (SourceSet.mask {1}, f₂) ∧
        f₂.getSignal 5 "S1" = none :=
  (claim_C6_removeSignal_order mgr1 ⟨1, 5⟩ "S1" (SourceSet.mask {1}) fileA
    (by decide)).1 ⟨"S1", 0⟩ rfl

/-- Counterexample to C7 as stated: `removeMsg` on a message address the
delegate cannot find (address 99 is absent from the database, so the
delegate's removal is rejected as "not found" and the database is left
unchanged) still emits a per-channel msgRemoved notification — the manager
never consults the delegate's outcome for updateMsg/removeMsg. -/
theorem claim_C7_counterexample :
    fileA.msg 99 = none ∧
    (mgr1.removeMsg ⟨1, 99⟩).map EditResult.events = some [Event.msgRemoved ⟨1, 99⟩] ∧
    (mgr1.removeMsg ⟨1, 99⟩).map EditResult.state = some mgr1 := by
  refine ⟨rfl, ?_, ?_⟩ <;> decide

/-- C7 amended: for the signal edits (addSignal, updateSignal, removeSignal)
a delegate rejection yields no notification and leaves the registry
unchanged; updateMsg and removeMsg instead emit their per-channel
notifications unconditionally (the delegate reports no success information
back to the manager). -/
theorem claim_C7_delegate_rejection (m : DBCManager) (id : MessageId) (sigName : String)
    (sig : Signal) (n : String) (size : Nat) (ss : SourceSet) (f : DBCFile)
    (h : m.findDBCFile id.source = some (ss, f)) :
    (f.addSignal id.address sig = none → m.addSignal id sig = some ⟨m, []⟩) ∧
    (f.updateSignal id.address sigName sig = none →
      m.updateSignal id sigName sig = some ⟨m, []⟩) ∧
    (f.getSignal id.address sigName = none → m.removeSignal id sigName = some ⟨m, []⟩) ∧
    ((m.updateMsg id n size).map EditResult.events =
      some (ss.toList.map (fun ch => Event.msgUpdated ⟨ch, id.address⟩))) ∧
    ((m.removeMsg id).map EditResult.events =
      some (ss.toList.map (fun ch => Event.msgRemoved ⟨ch, id.address⟩))) := by
  refine ⟨?_, ?_, ?_, ?_, ?_⟩
  · intro h2
    simp [DBCManager.addSignal, h, h2]
  · intro h2
    simp [DBCManager.updateSignal, h, h2]
  · intro h2
    simp [DBCManager.removeSignal, h, h2]
  · simp [DBCManager.updateMsg, h, EditResult.events, List.map_map, Function.comp]
  · simp [DBCManager.removeMsg, h, EditResult.events, List.map_map, Function.comp]

/-- Witness for amended C7: adding a duplicate signal name is declined by the
delegate with no notification and no state change, while removeMsg of an
absent message still notifies per channel. -/
theorem claim_C7_delegate_rejection_witness :
    mgr1.addSignal ⟨1, 5⟩ ⟨"S1", 16⟩ = some ⟨mgr1, []⟩ ∧
    (mgr1.removeMsg ⟨1, 5⟩).map EditResult.events = some [Event.msgRemoved ⟨1, 5⟩] := by
  have h := claim_C7_delegate_rejection mgr1 ⟨1, 5⟩ "S1" ⟨"S1", 16⟩ "M5" 8
    (SourceSet.mask {1}) fileA (by decide)
  refine ⟨h.1 rfl, ?_⟩
  have h5 := h.2.2.2.2
  rw [h5]
  rfl

/-- C3: construction-failure atomicity of open: whenever the database
constructor fails, the registry state is left exactly as it was; if the call
reports failure it sets the error out-parameter and emits no notification
(the only way it can still succeed is the merge path, which needs an
association whose filename matches and constructs nothing). -/
theorem claim_C3_open_atomicity (m : DBCManager) (construct : String → Except String DBCFile)
    (s : SourceSet) (fname : String) (emsg : String)
    (h : construct fname = Except.error emsg) :
    (m.openDBC construct s fname).state = m ∧
    ((m.openDBC construct s fname).ok = false →
      (m.openDBC construct s fname).err = some emsg ∧
      (m.openDBC construct s fname).events = []) ∧
    ((m.openDBC construct s fname).ok = true →
      ∃ p ∈ m.dbc_files, p.2.filename = fname) := by
  rcases openScan_of_construct_error construct s fname emsg h m.dbc_files with
    h3 | ⟨ss', h3, p, hp, hpf⟩ | h3
  · have hres : m.openDBC construct s fname = ⟨false, some emsg, m, []⟩ := by
      unfold DBCManager.openDBC
      rw [h3, h]
    rw [hres]
    refine ⟨rfl, fun _ => ⟨rfl, rfl⟩, fun hok => ?_⟩
    exact absurd hok (by simp)
  · have hres : m.openDBC construct s fname = ⟨true, none, m, [Event.DBCFileChanged]⟩ := by
      unfold DBCManager.openDBC
      rw [h3]
    rw [hres]
    refine ⟨rfl, fun hok => absurd hok (by simp), fun _ => ⟨p, hp, hpf⟩⟩
  · have hres : m.openDBC construct s fname = ⟨false, some emsg, m, []⟩ := by
      unfold DBCManager.openDBC
      rw [h3]
    rw [hres]
    refine ⟨rfl, fun _ => ⟨rfl, rfl⟩, fun hok => ?_⟩
    exact absurd hok (by simp)

/-- Witness for C3: a failing constructor on the replace path (the stored
association has the same channel set {1} but a different filename) reports
the error and leaves the registry intact. -/
theorem claim_C3_open_atomicity_witness :
    (mgr1.openDBC constructFail (SourceSet.mask {1}) "x.dbc").state = mgr1 ∧
    ((mgr1.openDBC constructFail (SourceSet.mask {1}) "x.dbc").ok = false →
      (mgr1.openDBC constructFail (SourceSet.mask {1}) "x.dbc").err = some "parse error" ∧
      (mgr1.openDBC constructFail (SourceSet.mask {1}) "x.dbc").events = []) ∧
    ((mgr1.openDBC constructFail (SourceSet.mask {1}) "x.dbc").ok = true →
      ∃ p ∈ mgr1.dbc_files, p.2.filename = "x.dbc") :=
  claim_C3_open_atomicity mgr1 constructFail (SourceSet.mask {1}) "x.dbc" "parse error" rfl

/-- C2 (evaluation at the failing input): opening "a.dbc" for {1} on the
empty registry and then opening the same source for {2} takes the merge
branch, which computes `ss |= s` into a structured-binding copy of the
stored pair (`auto [ss, dbc_file] = dbc_files[i]`) — the union is discarded,
so the surviving association's channel set is still {1}, not {1,2}, even
though `dbcCount` is 1 and the call reports success. -/
theorem claim_C2_merge_union_lost :
    ((mgr0.openDBC constructOk (SourceSet.mask {1}) "a.dbc").state.openDBC constructOk
        (SourceSet.mask {2}) "a.dbc").ok = true ∧
    ((mgr0.openDBC constructOk (SourceSet.mask {1}) "a.dbc").state.openDBC constructOk
        (SourceSet.mask {2}) "a.dbc").state.dbc_files
      = [(SourceSet.mask {1}, ⟨"a.dbc", []⟩)] ∧
    ((mgr0.openDBC constructOk (SourceSet.mask {1}) "a.dbc").state.openDBC constructOk
        (SourceSet.mask {2}) "a.dbc").state.dbcCount = 1 ∧
    SourceSet.mask {1} ≠ SourceSet.mask {1, 2} := by
  refine ⟨?_, ?_, ?_, ?_⟩ <;> decide
